import Mathlib

/-!
Shallow embedding of `src/hp/magicsock/udp_actor.rs`: the receive-side UDP
actor of the magicsock layer.  Bytes are modelled as `List Nat`, socket
addresses and io errors as abstract `Nat` codes.  The two fallible/diverging
aspects of the code — the GRO segment-splitting `while` loop (which does not
terminate when `stride = 0`) and the polling of the two sockets — are modelled
with fuel (an `Option` result, `none` marking divergence) and with explicit
`Poll` inputs respectively.
-/

deriving instance DecidableEq for Except

namespace IrohUdp

/-- A byte string (`bytes::Bytes` / `BytesMut` in the source). -/
abbrev Bytes := List Nat

/-- `quinn_udp::RecvMeta`: per-slot receive metadata.  `addr` is the source
address (abstract code), `ecn` the optional congestion bits, `dst_ip` the
optional destination address. -/
structure RecvMeta where
  addr : Nat
  len : Nat
  stride : Nat
  ecn : Option Nat
  dst_ip : Option Nat
deriving DecidableEq, Repr

/-- `conn::Network`: the address family a packet was read from. -/
inductive Network where
  | Ipv4 : Network
  | Ipv6 : Network
deriving DecidableEq, Repr

/-- `NetworkSource` from the source file. -/
inductive NetworkSource where
  | Ipv4 : NetworkSource
  | Ipv6 : NetworkSource
  | Derp : NetworkSource
deriving DecidableEq, Repr

/-- `NetworkReadResult` from the source file: either a whole-call io error or
a received packet with its family and metadata. -/
inductive NetworkReadResult where
  | Error : Nat → NetworkReadResult
  | Ok : NetworkSource → RecvMeta → Bytes → NetworkReadResult
deriving DecidableEq, Repr

/-- `IpPacket` from the source file: the message sent on the transport
(classified) channel `ip_sender`. -/
inductive IpPacket where
  | Disco : Bytes → Bytes → Nat → IpPacket
  | Forward : NetworkReadResult → IpPacket
deriving DecidableEq, Repr

/-- `UdpActorMessage` from the source file: the control-channel message. -/
inductive UdpActorMessage where
  | Shutdown : UdpActorMessage
deriving DecidableEq, Repr

/-- One kernel-reported receive slot: its metadata together with the contents
of the batch buffer chunk it was read into (`metas[i]` plus `iovs[i]`).  The
slot's data is `buf[0..meta.len]`. -/
structure ReceiveSlot where
  meta : RecvMeta
  buf : Bytes
deriving DecidableEq, Repr

/-- The segment-splitting `while` loop of `poll_next` (lines 211-217 and
235-241 of the source): repeatedly `split_to(min(stride, data.len()))`,
overwriting the (mutable) metadata's `len` and `stride` with the emitted
piece's own length.  `fuel` bounds the number of iterations; `none` models
divergence of the source loop (which happens exactly when `stride = 0` and
the data is non-empty, since then `split_to(0)` makes no progress). -/
def splitLoop (stride : Nat) : RecvMeta → Nat → Bytes → Option (List (Bytes × RecvMeta))
  | _, _, [] => some []
  | _, 0, _ :: _ => none
  | meta, fuel + 1, d :: ds =>
    let data := d :: ds
    let n := min stride data.length
    let piece := data.take n
    let meta' : RecvMeta := { meta with len := piece.length, stride := piece.length }
    match splitLoop stride meta' fuel (data.drop n) with
    | none => none
    | some rest => some ((piece, meta') :: rest)

/-- Process one receive slot as the source does: take the first `meta.len`
bytes of the chunk and run the splitting loop with the slot's stride.  The
fuel `data.length` is exhaustive: with a positive stride every iteration
consumes at least one byte. -/
def processSlot (slot : ReceiveSlot) : Option (List (Bytes × RecvMeta)) :=
  let data := slot.buf.take slot.meta.len
  splitLoop slot.meta.stride slot.meta data.length data

/-- A queued output item: `(Bytes, Network, RecvMeta)`, the element type of
`out_buffer` and the `Ok` item type of the `Stream` impl. -/
abbrev Item := Bytes × Network × RecvMeta

/-- The readiness state of a socket poll (`std::task::Poll`). -/
inductive Poll (α : Type) where
  | pending : Poll α
  | ready : α → Poll α
deriving DecidableEq, Repr

/-- The result type of `RebindingUdpConn::poll_recv` when ready: an io error,
or the list of filled receive slots (`metas`/`iovs` truncated to `msgs`). -/
abbrev RecvRes := Except Nat (List ReceiveSlot)

/-- The `for` loop over the filled slots (lines 208-218 / 232-242): split each
slot and push every resulting packet onto the back of `out_buffer`, tagging it
with the socket's address family. -/
def enqueueSlots (net : Network) : List ReceiveSlot → List Item → Option (List Item)
  | [], q => some q
  | s :: rest, q =>
    match processSlot s with
    | none => none
    | some ps => enqueueSlots net rest (q ++ ps.map (fun p => (p.1, net, p.2)))

/-- One socket stage of `poll_next` starting from an empty queue: `some none`
means fall through to the next stage (pending, or ready with no packets),
`some (some (res, rest))` means return `Poll::Ready(Some(res))` leaving `rest`
queued, `none` models divergence of the splitting loop. -/
def recvStage (net : Network) (r : Poll RecvRes) :
    Option (Option (Except Nat Item × List Item)) :=
  match r with
  | Poll.pending => some none
  | Poll.ready (Except.error e) => some (some (Except.error e, []))
  | Poll.ready (Except.ok slots) =>
    match enqueueSlots net slots [] with
    | none => none
    | some [] => some none
    | some (x :: rest) => some (some (Except.ok x, rest))

/-- `Stream::poll_next` for `UdpActor` (lines 182-253), as a pure function of
the connection's closed flag, the presence of `pconn6`, the current
`out_buffer` contents, and the two sockets' poll results this cycle.  Returns
the stream poll result paired with the `out_buffer` left behind; the outer
`Option` is `none` only when a splitting loop diverges. -/
def poll_next (closed hasP6 : Bool) (q : List Item) (r6 r4 : Poll RecvRes) :
    Option (Poll (Option (Except Nat Item)) × List Item) :=
  if closed then some (Poll.ready none, q)
  else
    match q with
    | x :: rest => some (Poll.ready (some (Except.ok x)), rest)
    | [] =>
      match (if hasP6 then recvStage Network.Ipv6 r6 else some none) with
      | none => none
      | some (some (res, rest)) => some (Poll.ready (some res), rest)
      | some none =>
        match recvStage Network.Ipv4 r4 with
        | none => none
        | some (some (res, rest)) => some (Poll.ready (some res), rest)
        | some none => some (Poll.pending, [])

/-- Modelled from the spec: the discovery parser `disco::source_and_box`, whose
module is not part of this repository slice.  Per the spec it "recognizes a
fixed wire prefix; on match it extracts a fixed-length routing key and a
zero-copy sub-view of the remaining bytes as the sealed payload".  The magic
bytes and the key length are parameters (the spec fixes neither beyond the
key being 32 bytes in its examples); on match the parser returns the key
bytes and the byte offset at which the sealed payload starts. -/
def source_and_box (magic : Bytes) (klen : Nat) (p : Bytes) : Option (Bytes × Nat) :=
  if magic.isPrefixOf p && decide (magic.length + klen ≤ p.length) then
    some ((p.drop magic.length).take klen, magic.length + klen)
  else none

/-- Packet classification, lines 105-149 of `run`.  `stun_is` abstracts the
pure content predicate `stun::is` (external to this slice); `magic`/`klen`
parameterize the discovery parser.  Returns the messages attempted on the
netcheck (stun) channel and the optional message for the transport channel:
a stun match sends at most a stun message and never a transport message; a
disco match builds `IpPacket::Disco` from the parsed key, the suffix of the
packet after the key, and the slot's source address; anything else is wrapped
as a `Forward` tagged with the packet's address family. -/
def classifyPacket (stun_is : Bytes → Bool) (magic : Bytes) (klen : Nat)
    (enable_stun : Bool) (packet : Bytes) (network : Network) (meta : RecvMeta) :
    List (Bytes × Nat) × Option IpPacket :=
  if stun_is packet then
    ((if enable_stun then [(packet, meta.addr)] else []), none)
  else
    match source_and_box magic klen packet with
    | some (source, off) =>
      ([], some (IpPacket.Disco source (packet.drop off) meta.addr))
    | none =>
      match network with
      | Network.Ipv4 => ([], some (IpPacket.Forward (NetworkReadResult.Ok NetworkSource.Ipv4 meta packet)))
      | Network.Ipv6 => ([], some (IpPacket.Forward (NetworkReadResult.Ok NetworkSource.Ipv6 meta packet)))

/-- What the biased select's control branch observed this iteration: a
received message, a closed control channel (`recv()` returned `None`, so the
`Some(msg) = ...` pattern fails and the branch is disabled), or not ready. -/
inductive ControlEvent where
  | msg : UdpActorMessage → ControlEvent
  | chanClosed : ControlEvent
  | pending : ControlEvent
deriving DecidableEq, Repr

/-- What `self.next()` yielded this iteration: an item (ok packet or io
error), or `None` (end of stream). -/
inductive PipeEvent where
  | item : Except Nat Item → PipeEvent
  | eos : PipeEvent
deriving DecidableEq, Repr

/-- The observable outcome of one (or several) iterations of the `run` loop:
whether the loop `break`s, the stun packets delivered on the netcheck channel,
and the messages delivered on the transport channel. -/
structure StepOutcome where
  terminated : Bool
  stunSends : List (Bytes × Nat)
  ipSends : List IpPacket
deriving DecidableEq, Repr

/-- One iteration of the `run` loop (lines 88-171), given which events were
ready.  `tokio::select! biased` checks the control branch first; its pattern
`Some(msg) = msg_receiver.recv()` only matches an actual message, so a closed
control channel disables that branch.  `stunDeliver` models whether the
netcheck channel's `try_send` succeeds (it is droppable); `ipOpen` models
whether the transport channel still has a receiver (a failed blocking `send`
breaks the loop). -/
def runStep (stun_is : Bytes → Bool) (magic : Bytes) (klen : Nat)
    (enable_stun stunDeliver ipOpen : Bool)
    (ctrl : ControlEvent) (pipe : PipeEvent) : StepOutcome :=
  match ctrl with
  | ControlEvent.msg UdpActorMessage.Shutdown => ⟨true, [], []⟩
  | _ =>
    match pipe with
    | PipeEvent.eos => ⟨true, [], []⟩
    | PipeEvent.item (Except.ok (packet, network, meta)) =>
      match classifyPacket stun_is magic klen enable_stun packet network meta with
      | (stuns, none) => ⟨false, if stunDeliver then stuns else [], []⟩
      | (stuns, some m) =>
        if ipOpen then ⟨false, if stunDeliver then stuns else [], [m]⟩
        else ⟨true, if stunDeliver then stuns else [], []⟩
    | PipeEvent.item (Except.error e) =>
      if ipOpen then ⟨false, [], [IpPacket.Forward (NetworkReadResult.Error e)]⟩
      else ⟨true, [], []⟩

/-- The `run` loop over a finite trace of per-iteration events: iterations
execute in order, accumulating delivered messages, and stop at the first one
that `break`s. -/
def run (stun_is : Bytes → Bool) (magic : Bytes) (klen : Nat)
    (enable_stun stunDeliver ipOpen : Bool) :
    List (ControlEvent × PipeEvent) → StepOutcome
  | [] => ⟨false, [], []⟩
  | (c, p) :: rest =>
    let o := runStep stun_is magic klen enable_stun stunDeliver ipOpen c p
    if o.terminated then o
    else
      let r := run stun_is magic klen enable_stun stunDeliver ipOpen rest
      ⟨r.terminated, o.stunSends ++ r.stunSends, o.ipSends ++ r.ipSends⟩

/-- Whether a pipeline item requires a blocking send on the transport channel
(every io error does; an ok packet does unless it is classified as stun). -/
def needsTransport (stun_is : Bytes → Bool) (magic : Bytes) (klen : Nat)
    (enable_stun : Bool) (r : Except Nat Item) : Bool :=
  match r with
  | Except.error _ => true
  | Except.ok (packet, network, meta) =>
    (classifyPacket stun_is magic klen enable_stun packet network meta).2.isSome

/-! ## Lemmas about the segment splitter -/

/-- Unfolding equation for `splitLoop` on a non-empty buffer with fuel left. -/
theorem splitLoop_cons (stride : Nat) (meta : RecvMeta) (fuel : Nat) (d : Nat) (ds : Bytes) :
    splitLoop stride meta (fuel + 1) (d :: ds) =
      match splitLoop stride
          { meta with len := ((d :: ds).take (min stride (d :: ds).length)).length,
                      stride := ((d :: ds).take (min stride (d :: ds).length)).length }
          fuel ((d :: ds).drop (min stride (d :: ds).length)) with
      | none => none
      | some rest =>
        some (((d :: ds).take (min stride (d :: ds).length),
          { meta with len := ((d :: ds).take (min stride (d :: ds).length)).length,
                      stride := ((d :: ds).take (min stride (d :: ds).length)).length }) :: rest) :=
  rfl

/-- Ceiling-division step: removing one chunk of `min stride L` bytes from a
non-empty buffer decreases the chunk count `ceil(L / stride)` by one. -/
theorem ceil_chunk (stride L : Nat) (hs : 0 < stride) (hL : 0 < L) :
    (L - min stride L + stride - 1) / stride + 1 = (L + stride - 1) / stride := by
  rcases le_or_lt stride L with h | h
  · have h1 : min stride L = stride := min_eq_left h
    have h2 : L - stride + stride - 1 = L - 1 := by omega
    have h3 : L + stride - 1 = (L - 1) + stride := by omega
    rw [h1, h2, h3, Nat.add_div_right _ hs]
  · have h1 : min stride L = L := min_eq_right (le_of_lt h)
    have h2 : L - L + stride - 1 = stride - 1 := by omega
    have h4 : (L + stride - 1) / stride = 1 := by
      apply Nat.div_eq_of_lt_le
      · omega
      · omega
    rw [h1, h2, Nat.div_eq_of_lt (by omega), h4]

/-- Soundness of the splitting loop for a positive stride, with fuel at least
the buffer length: it returns chunks that concatenate back to the input, occur
in the ceiling-division count, are each non-empty and at most `stride` long,
and carry metadata whose `len` and `stride` equal the chunk's own length while
every other field is inherited from the input metadata. -/
theorem splitLoop_sound (stride : Nat) (hs : 0 < stride) :
    ∀ (fuel : Nat) (data : Bytes) (meta : RecvMeta), data.length ≤ fuel →
      ∃ ps, splitLoop stride meta fuel data = some ps ∧
        (ps.map (fun p => p.1)).flatten = data ∧
        ps.length = (data.length + stride - 1) / stride ∧
        ∀ p ∈ ps, p.1.length ≤ stride ∧ 0 < p.1.length ∧
          p.2.len = p.1.length ∧ p.2.stride = p.1.length ∧
          p.2.addr = meta.addr ∧ p.2.ecn = meta.ecn ∧ p.2.dst_ip = meta.dst_ip := by
  intro fuel
  induction fuel with
  | zero =>
    intro data meta h
    have hd : data = [] := List.eq_nil_of_length_eq_zero (Nat.le_zero.mp h)
    subst hd
    refine ⟨[], rfl, rfl, ?_, by simp⟩
    have hz : (0 + stride - 1) / stride = 0 := Nat.div_eq_of_lt (by omega)
    simpa using hz.symm
  | succ n ih =>
    intro data meta h
    match data with
    | [] =>
      refine ⟨[], rfl, rfl, ?_, by simp⟩
      have hz : (0 + stride - 1) / stride = 0 := Nat.div_eq_of_lt (by omega)
      simpa using hz.symm
    | d :: ds =>
      have hL : 0 < (d :: ds).length := by simp
      have hnn1 : 0 < min stride (d :: ds).length := lt_min hs hL
      have hlen : ((d :: ds).drop (min stride (d :: ds).length)).length ≤ n := by
        rw [List.length_drop]
        simp only [List.length_cons] at h hnn1 ⊢
        omega
      obtain ⟨ps, hps, hjoin, hcount, hmem⟩ :=
        ih ((d :: ds).drop (min stride (d :: ds).length))
          { meta with len := ((d :: ds).take (min stride (d :: ds).length)).length,
                      stride := ((d :: ds).take (min stride (d :: ds).length)).length }
          hlen
      have ht : ((d :: ds).take (min stride (d :: ds).length)).length
          = min stride (d :: ds).length := by
        rw [List.length_take]
        exact min_eq_left (min_le_right _ _)
      refine ⟨((d :: ds).take (min stride (d :: ds).length),
        { meta with len := ((d :: ds).take (min stride (d :: ds).length)).length,
                    stride := ((d :: ds).take (min stride (d :: ds).length)).length }) :: ps,
        ?_, ?_, ?_, ?_⟩
      · rw [splitLoop_cons, hps]
      · simp only [List.map_cons, List.flatten_cons]
        rw [hjoin]
        exact List.take_append_drop _ _
      · simp only [List.length_cons]
        rw [hcount, List.length_drop]
        exact ceil_chunk stride (d :: ds).length hs hL
      · intro p hp
        rcases List.mem_cons.mp hp with hp | hp
        · subst hp
          refine ⟨?_, ?_, rfl, rfl, rfl, rfl, rfl⟩
          · rw [ht]; exact min_le_left _ _
          · rw [ht]; exact hnn1
        · obtain ⟨h1, h2, h3, h4, h5, h6, h7⟩ := hmem p hp
          exact ⟨h1, h2, h3, h4, h5, h6, h7⟩

/-- With stride `0` and a non-empty buffer, the splitting loop makes no
progress: it exhausts any amount of fuel (the source loop diverges). -/
theorem splitLoop_zero :
    ∀ (fuel : Nat) (meta : RecvMeta) (d : Nat) (ds : Bytes),
      splitLoop 0 meta fuel (d :: ds) = none := by
  intro fuel
  induction fuel with
  | zero => intro meta d ds; rfl
  | succ n ih =>
    intro meta d ds
    rw [splitLoop_cons]
    simp only [Nat.zero_min, List.take_zero, List.drop_zero, List.length_nil]
    rw [ih]

/-- C1 counterexample: the slot with declared length `L = 0` and stride
`S = 1` has `0 < S` and `S ≥ L`, yet the splitter emits zero packets, not
exactly one packet equal to the whole slot. -/
theorem C1_counterexample :
    0 < (⟨⟨0, 0, 1, none, none⟩, []⟩ : ReceiveSlot).meta.stride ∧
    (⟨⟨0, 0, 1, none, none⟩, []⟩ : ReceiveSlot).meta.stride ≥
      (⟨⟨0, 0, 1, none, none⟩, []⟩ : ReceiveSlot).meta.len ∧
    processSlot ⟨⟨0, 0, 1, none, none⟩, []⟩ = some [] ∧
    List.length ([] : List (Bytes × RecvMeta)) ≠ 1 :=
  ⟨by decide, by decide, rfl, by decide⟩

/-- C1 (amended: the single-packet edge case additionally requires `L > 0`;
when `L = 0` the splitter emits no packet at all): for a slot with declared
length `L` and stride `S`, `0 < S`, the splitter emits exactly `ceil(L/S)`
packets, in byte order (their concatenation is the slot's data), with lengths
summing to `L`, each at most `S`; each packet's metadata has `len` and
`stride` equal to the packet's own size and all other fields (address, ecn,
destination) copied from the slot; and if `S ≥ L` and `0 < L`, exactly one
packet carrying the whole slot's data is emitted. -/
theorem C1_segment_split (slot : ReceiveSlot)
    (hs : 0 < slot.meta.stride) (hb : slot.meta.len ≤ slot.buf.length) :
    ∃ ps, processSlot slot = some ps ∧
      ps.length = (slot.meta.len + slot.meta.stride - 1) / slot.meta.stride ∧
      (ps.map (fun p => p.1)).flatten = slot.buf.take slot.meta.len ∧
      (ps.map (fun p => p.1.length)).sum = slot.meta.len ∧
      (∀ p ∈ ps, p.1.length ≤ slot.meta.stride ∧
        p.2.len = p.1.length ∧ p.2.stride = p.1.length ∧
        p.2.addr = slot.meta.addr ∧ p.2.ecn = slot.meta.ecn ∧
        p.2.dst_ip = slot.meta.dst_ip) ∧
      (slot.meta.len = 0 → ps = []) ∧
      (slot.meta.stride ≥ slot.meta.len → 0 < slot.meta.len →
        ∃ m, ps = [(slot.buf.take slot.meta.len, m)]) := by
  have hdl : (slot.buf.take slot.meta.len).length = slot.meta.len := by
    rw [List.length_take]
    exact min_eq_left hb
  obtain ⟨ps, hps, hjoin, hcount, hmem⟩ :=
    splitLoop_sound slot.meta.stride hs (slot.buf.take slot.meta.len).length
      (slot.buf.take slot.meta.len) slot.meta (le_refl _)
  rw [hdl] at hcount
  refine ⟨ps, hps, hcount, hjoin, ?_, ?_, ?_, ?_⟩
  · have := congrArg List.length hjoin
    rw [List.length_flatten, List.map_map, hdl] at this
    simpa using this
  · intro p hp
    obtain ⟨h1, _, h3, h4, h5, h6, h7⟩ := hmem p hp
    exact ⟨h1, h3, h4, h5, h6, h7⟩
  · intro h0
    rw [h0] at hcount
    have : ps.length = 0 := by
      rw [hcount, Nat.div_eq_of_lt (by omega)]
    exact List.length_eq_zero.mp this
  · intro hSL hL
    have hone : ps.length = 1 := by
      rw [hcount]
      apply Nat.div_eq_of_lt_le
      · omega
      · omega
    obtain ⟨a, ha⟩ := List.length_eq_one.mp hone
    rw [ha] at hjoin
    simp only [List.map_cons, List.map_nil, List.flatten_cons, List.flatten_nil,
      List.append_nil] at hjoin
    exact ⟨a.2, by rw [ha, ← hjoin]⟩

/-- C1 witness: the slot with address 7, length 5, stride 2 and bytes
`[1, 2, 3, 4, 5]` splits into `ceil(5/2) = 3` packets that concatenate back to
the data. -/
theorem C1_witness :
    ∃ ps, processSlot ⟨⟨7, 5, 2, none, none⟩, [1, 2, 3, 4, 5]⟩ = some ps ∧
      ps.length = 3 ∧ (ps.map (fun p => p.1)).flatten = [1, 2, 3, 4, 5] := by
  obtain ⟨ps, h1, h2, h3, _⟩ :=
    C1_segment_split ⟨⟨7, 5, 2, none, none⟩, [1, 2, 3, 4, 5]⟩ (by decide) (by decide)
  exact ⟨ps, h1, by simpa using h2, by simpa using h3⟩

/-- C9: for any slot metadata and any buffer, the splitting loop terminates
within `data.length` iterations whenever the stride is at least 1 (each
iteration removes `min(stride, remaining) ≥ 1` bytes); and the positivity
hypothesis is required: with stride `0` and a non-empty buffer the loop
exhausts every fuel bound, i.e. the source loop diverges. -/
theorem C9_split_termination (stride : Nat) (meta : RecvMeta) (data : Bytes) :
    (0 < stride → (splitLoop stride meta data.length data).isSome = true) ∧
    (stride = 0 → data ≠ [] → ∀ fuel, splitLoop stride meta fuel data = none) := by
  constructor
  · intro hs
    obtain ⟨ps, hps, -, -, -⟩ := splitLoop_sound stride hs data.length data meta (le_refl _)
    rw [hps]
    rfl
  · intro h0 hne fuel
    subst h0
    match data with
    | [] => exact absurd rfl hne
    | d :: ds => exact splitLoop_zero fuel meta d ds

/-- C9 witness: with stride 1 the loop terminates on `[5]` within its length
worth of fuel; with stride 0 it returns no result even with fuel 3. -/
theorem C9_witness :
    (splitLoop 1 ⟨0, 0, 0, none, none⟩ (List.length [5]) [5]).isSome = true ∧
    splitLoop 0 ⟨0, 0, 0, none, none⟩ 3 [5] = none :=
  ⟨(C9_split_termination 1 ⟨0, 0, 0, none, none⟩ [5]).1 (by decide),
   (C9_split_termination 0 ⟨0, 0, 0, none, none⟩ [5]).2 rfl (by decide) 3⟩

/-! ## Lemmas about the pull pipeline (`poll_next`) -/

/-- Every item produced by `enqueueSlots` either was already queued or is
tagged with the address family of the socket being drained. -/
theorem enqueueSlots_tag (net : Network) :
    ∀ (slots : List ReceiveSlot) (q q' : List Item),
      enqueueSlots net slots q = some q' → ∀ x ∈ q', x ∈ q ∨ x.2.1 = net := by
  intro slots
  induction slots with
  | nil =>
    intro q q' h x hx
    simp only [enqueueSlots, Option.some.injEq] at h
    subst h
    exact Or.inl hx
  | cons s rest ih =>
    intro q q' h x hx
    simp only [enqueueSlots] at h
    cases hps : processSlot s with
    | none => rw [hps] at h; exact absurd h (by simp)
    | some ps =>
      rw [hps] at h
      rcases ih _ _ h x hx with hq | htag
      · rcases List.mem_append.mp hq with hq | hmap
        · exact Or.inl hq
        · obtain ⟨p, -, hp⟩ := List.mem_map.mp hmap
          right
          rw [← hp]
      · exact Or.inr htag

/-- Every item a socket stage returns or leaves queued is tagged with that
socket's address family. -/
theorem recvStage_tag (net : Network) (r : Poll RecvRes)
    (res : Except Nat Item) (rest : List Item)
    (h : recvStage net r = some (some (res, rest))) :
    (∀ x ∈ rest, x.2.1 = net) ∧ ∀ i : Item, res = Except.ok i → i.2.1 = net := by
  match r with
  | Poll.pending => exact absurd h (by simp [recvStage])
  | Poll.ready (Except.error e) =>
    simp only [recvStage, Option.some.injEq, Prod.mk.injEq] at h
    obtain ⟨h1, h2⟩ := h
    subst h2
    constructor
    · intro x hx; exact absurd hx (List.not_mem_nil x)
    · intro i hi; rw [← h1] at hi; exact absurd hi (by simp)
  | Poll.ready (Except.ok slots) =>
    simp only [recvStage] at h
    cases he : enqueueSlots net slots [] with
    | none => rw [he] at h; exact absurd h (by simp)
    | some q =>
      rw [he] at h
      match q, h with
      | x :: tail, h =>
        simp only [Option.some.injEq, Prod.mk.injEq] at h
        obtain ⟨h1, h2⟩ := h
        subst h2
        have hall := enqueueSlots_tag net slots [] (x :: tail) he
        constructor
        · intro y hy
          rcases hall y (List.mem_cons_of_mem x hy) with hmem | htag
          · exact absurd hmem (List.not_mem_nil y)
          · exact htag
        · intro i hi
          rw [← h1] at hi
          have := Except.ok.inj hi
          subst this
          rcases hall x (List.mem_cons_self x tail) with hmem | htag
          · exact absurd hmem (List.not_mem_nil x)
          · exact htag

/-- C3: when the connection's closed flag is set, a pull returns
`Poll::Ready(None)` (end of stream) immediately, for every queue content and
every reader state: the closure check precedes the queue drain and the
buffered items are left unreturned. -/
theorem C3_closed_eos (hasP6 : Bool) (q : List Item) (r6 r4 : Poll RecvRes) :
    poll_next true hasP6 q r6 r4 = some (Poll.ready none, q) :=
  rfl

/-- C7: when the connection is not closed and the output queue is non-empty,
a pull pops and returns the queue's front item, for every state of the two
readers (neither socket is read). -/
theorem C7_queue_first (hasP6 : Bool) (x : Item) (rest : List Item)
    (r6 r4 : Poll RecvRes) :
    poll_next false hasP6 (x :: rest) r6 r4
      = some (Poll.ready (some (Except.ok x)), rest) :=
  rfl

/-- C8: with an empty queue and an IPv6 socket present, the IPv6 reader is
consulted first: if its stage yields a result, that result is returned — with
all queued leftovers and any ok item tagged IPv6 — independently of the IPv4
reader's state; the IPv4 reader determines the outcome only when the IPv6
stage yields no ready data (pending or an empty batch), in which case the
pull behaves exactly like an IPv4-only pull. -/
theorem C8_ipv6_bias (r6 r4 : Poll RecvRes) (res : Except Nat Item) (rest : List Item) :
    (recvStage Network.Ipv6 r6 = some (some (res, rest)) →
      poll_next false true [] r6 r4 = some (Poll.ready (some res), rest) ∧
      (∀ x ∈ rest, x.2.1 = Network.Ipv6) ∧
      ∀ i : Item, res = Except.ok i → i.2.1 = Network.Ipv6) ∧
    (recvStage Network.Ipv6 r6 = some none →
      poll_next false true [] r6 r4 = poll_next false false [] Poll.pending r4) := by
  constructor
  · intro h
    refine ⟨?_, (recvStage_tag Network.Ipv6 r6 res rest h).1,
      (recvStage_tag Network.Ipv6 r6 res rest h).2⟩
    simp [poll_next, h]
  · intro h
    simp [poll_next, h]

/-- C8 witness: one coalesced IPv6 slot of length 2 and stride 1 splits into
two IPv6-tagged packets; the first is returned and the second queued, even
though the IPv4 reader has an error ready at the same time. -/
theorem C8_witness :
    poll_next false true [] (Poll.ready (Except.ok [⟨⟨3, 2, 1, none, none⟩, [9, 8]⟩]))
        (Poll.ready (Except.error 7))
      = some (Poll.ready (some (Except.ok ([9], Network.Ipv6, ⟨3, 1, 1, none, none⟩))),
          [([8], Network.Ipv6, ⟨3, 1, 1, none, none⟩)]) :=
  ((C8_ipv6_bias (Poll.ready (Except.ok [⟨⟨3, 2, 1, none, none⟩, [9, 8]⟩]))
      (Poll.ready (Except.error 7))
      (Except.ok ([9], Network.Ipv6, ⟨3, 1, 1, none, none⟩))
      [([8], Network.Ipv6, ⟨3, 1, 1, none, none⟩)]).1 rfl).1

/-! ## Lemmas about the actor loop (`run`) -/

/-- A packet matched by the stun predicate is never classified further: the
transport component of its classification is `none`. -/
theorem classify_stun_none (stun_is : Bytes → Bool) (magic : Bytes) (klen : Nat)
    (enable_stun : Bool) (packet : Bytes) (network : Network) (meta : RecvMeta)
    (h : stun_is packet = true) :
    (classifyPacket stun_is magic klen enable_stun packet network meta).2 = none := by
  simp [classifyPacket, h]

/-- A packet not matched by the stun predicate attempts no stun send. -/
theorem classify_not_stun (stun_is : Bytes → Bool) (magic : Bytes) (klen : Nat)
    (enable_stun : Bool) (packet : Bytes) (network : Network) (meta : RecvMeta)
    (h : stun_is packet = false) :
    (classifyPacket stun_is magic klen enable_stun packet network meta).1 = [] := by
  simp only [classifyPacket, h, Bool.false_eq_true, if_false]
  cases source_and_box magic klen packet with
  | none => cases network <;> rfl
  | some kb => rfl

/-- C2: a packet whose bytes satisfy the stun predicate is never sent on the
transport channel — neither as Discovery nor as Forward — for every value of
the probe-packets-enabled flag, every channel state, and every control-branch
state of that iteration. -/
theorem C2_stun_never_transport (stun_is : Bytes → Bool) (magic : Bytes) (klen : Nat)
    (enable_stun stunDeliver ipOpen : Bool) (ctrl : ControlEvent)
    (packet : Bytes) (network : Network) (meta : RecvMeta)
    (h : stun_is packet = true) :
    (runStep stun_is magic klen enable_stun stunDeliver ipOpen ctrl
      (PipeEvent.item (Except.ok (packet, network, meta)))).ipSends = [] := by
  cases ctrl with
  | msg m => cases m; rfl
  | chanClosed => simp [runStep, classifyPacket, h]
  | pending => simp [runStep, classifyPacket, h]

/-- C2 witness: with a predicate matching everything and the enable flag off,
the packet `[0]` produces no transport send. -/
theorem C2_witness :
    (runStep (fun _ => true) [] 0 false true true ControlEvent.pending
      (PipeEvent.item (Except.ok ([0], Network.Ipv4, ⟨1, 1, 1, none, none⟩)))).ipSends = [] :=
  C2_stun_never_transport (fun _ => true) [] 0 false true true ControlEvent.pending
    [0] Network.Ipv4 ⟨1, 1, 1, none, none⟩ rfl

/-- C4: an iteration in which a Shutdown control message is ready terminates
the loop having classified nothing and sent nothing, whatever pipeline result
is simultaneously ready and whatever events would have followed. -/
theorem C4_shutdown_priority (stun_is : Bytes → Bool) (magic : Bytes) (klen : Nat)
    (enable_stun stunDeliver ipOpen : Bool) (pipe : PipeEvent)
    (rest : List (ControlEvent × PipeEvent)) :
    run stun_is magic klen enable_stun stunDeliver ipOpen
      ((ControlEvent.msg UdpActorMessage.Shutdown, pipe) :: rest)
      = ⟨true, [], []⟩ :=
  rfl

/-- C5: a non-stun packet matching the discovery prefix is dispatched on the
transport channel as exactly one Discovery message whose routing key is the
`klen` bytes following the magic prefix and whose sealed payload is the
suffix of the packet starting at byte offset `magic.length + klen` — i.e.
immediately after the key — with the slot's source address. -/
theorem C5_disco_dispatch (stun_is : Bytes → Bool) (magic : Bytes) (klen : Nat)
    (enable_stun stunDeliver : Bool)
    (packet : Bytes) (network : Network) (meta : RecvMeta)
    (h1 : stun_is packet = false)
    (h2 : magic.isPrefixOf packet = true)
    (h3 : magic.length + klen ≤ packet.length) :
    runStep stun_is magic klen enable_stun stunDeliver true ControlEvent.pending
        (PipeEvent.item (Except.ok (packet, network, meta)))
      = ⟨false, [],
          [IpPacket.Disco ((packet.drop magic.length).take klen)
            (packet.drop (magic.length + klen)) meta.addr]⟩ := by
  simp [runStep, classifyPacket, source_and_box, h1, h2, h3]

/-- C5 witness: magic `[1]`, key length 2, packet `[1, 5, 6, 7, 8]`: the
dispatched Discovery message carries key `[5, 6]` and sealed payload `[7, 8]`
(the suffix starting at offset 3), with the slot's address 4. -/
theorem C5_witness :
    runStep (fun _ => false) [1] 2 false true true ControlEvent.pending
        (PipeEvent.item (Except.ok ([1, 5, 6, 7, 8], Network.Ipv4, ⟨4, 5, 5, none, none⟩)))
      = ⟨false, [], [IpPacket.Disco [5, 6] [7, 8] 4]⟩ := by
  have h := C5_disco_dispatch (fun _ => false) [1] 2 false true
    [1, 5, 6, 7, 8] Network.Ipv4 ⟨4, 5, 5, none, none⟩ rfl (by decide) (by decide)
  simpa using h

/-- A single iteration with the transport consumer gone and a pipeline item
that requires a transport send ends in `break` with nothing delivered. -/
theorem runStep_send_fail (stun_is : Bytes → Bool) (magic : Bytes) (klen : Nat)
    (enable_stun stunDeliver : Bool) (r : Except Nat Item)
    (h : needsTransport stun_is magic klen enable_stun r = true) :
    runStep stun_is magic klen enable_stun stunDeliver false ControlEvent.pending
      (PipeEvent.item r) = ⟨true, [], []⟩ := by
  match r with
  | Except.error e => rfl
  | Except.ok (packet, network, meta) =>
    simp only [needsTransport] at h
    cases hcp : classifyPacket stun_is magic klen enable_stun packet network meta with
    | mk stuns om =>
      rw [hcp] at h
      cases om with
      | none => simp at h
      | some m =>
        have hstun : stun_is packet = false := by
          cases hst : stun_is packet with
          | false => rfl
          | true =>
            have hn := classify_stun_none stun_is magic klen enable_stun packet network meta hst
            rw [hcp] at hn
            exact absurd hn (by simp)
        have hfst := classify_not_stun stun_is magic klen enable_stun packet network meta hstun
        rw [hcp] at hfst
        simp only at hfst
        subst hfst
        simp [runStep, hcp]

/-- C6: whenever the iteration's pipeline item requires a transport send — a
Discovery, a Forward of a packet, or a Forward of a whole-call io error — and
the transport channel's consumer is gone, the loop terminates at that
iteration with nothing delivered and no later event processed. -/
theorem C6_send_failure_fatal (stun_is : Bytes → Bool) (magic : Bytes) (klen : Nat)
    (enable_stun stunDeliver : Bool) (ctrl : ControlEvent) (r : Except Nat Item)
    (rest : List (ControlEvent × PipeEvent))
    (h : needsTransport stun_is magic klen enable_stun r = true) :
    run stun_is magic klen enable_stun stunDeliver false
      ((ctrl, PipeEvent.item r) :: rest) = ⟨true, [], []⟩ := by
  have hstep : runStep stun_is magic klen enable_stun stunDeliver false ctrl
      (PipeEvent.item r) = ⟨true, [], []⟩ := by
    cases ctrl with
    | msg m => cases m; rfl
    | chanClosed => exact runStep_send_fail stun_is magic klen enable_stun stunDeliver r h
    | pending => exact runStep_send_fail stun_is magic klen enable_stun stunDeliver r h
  simp [run, hstep]

/-- C6 witness: a whole-call io error with the transport consumer gone stops
the loop at once; the later queued event is never processed. -/
theorem C6_witness :
    run (fun _ => false) [] 0 true true false
        ((ControlEvent.pending, PipeEvent.item (Except.error 5)) ::
          [(ControlEvent.pending, PipeEvent.eos)])
      = ⟨true, [], []⟩ :=
  C6_send_failure_fatal (fun _ => false) [] 0 true true ControlEvent.pending
    (Except.error 5) [(ControlEvent.pending, PipeEvent.eos)] rfl

/-- C10: a closed control channel (all senders dropped, no Shutdown ever
sent) behaves exactly like a not-ready control branch — the iteration
proceeds to the pipeline — and, as long as the pipeline yields items and the
transport consumer is alive, the iteration does not terminate the loop. -/
theorem C10_control_closed_continues (stun_is : Bytes → Bool) (magic : Bytes)
    (klen : Nat) (enable_stun stunDeliver ipOpen : Bool) (pipe : PipeEvent) :
    runStep stun_is magic klen enable_stun stunDeliver ipOpen
        ControlEvent.chanClosed pipe
      = runStep stun_is magic klen enable_stun stunDeliver ipOpen
        ControlEvent.pending pipe ∧
    (pipe ≠ PipeEvent.eos → ipOpen = true →
      (runStep stun_is magic klen enable_stun stunDeliver ipOpen
        ControlEvent.chanClosed pipe).terminated = false) := by
  refine ⟨rfl, ?_⟩
  intro hp hip
  subst hip
  match pipe with
  | PipeEvent.eos => exact absurd rfl hp
  | PipeEvent.item (Except.error e) => rfl
  | PipeEvent.item (Except.ok (packet, network, meta)) =>
    simp only [runStep]
    cases hc : classifyPacket stun_is magic klen enable_stun packet network meta with
    | mk stuns om => cases om <;> simp

/-- C10 witness: with the control channel closed and an io-error item ready,
the iteration equals the not-ready-control iteration and does not terminate
(the error is forwarded and the loop continues). -/
theorem C10_witness :
    runStep (fun _ => false) [] 0 true true true ControlEvent.chanClosed
        (PipeEvent.item (Except.error 2))
      = runStep (fun _ => false) [] 0 true true true ControlEvent.pending
        (PipeEvent.item (Except.error 2)) ∧
    (runStep (fun _ => false) [] 0 true true true ControlEvent.chanClosed
        (PipeEvent.item (Except.error 2))).terminated = false :=
  ⟨(C10_control_closed_continues (fun _ => false) [] 0 true true true
      (PipeEvent.item (Except.error 2))).1,
   (C10_control_closed_continues (fun _ => false) [] 0 true true true
      (PipeEvent.item (Except.error 2))).2 (by decide) rfl⟩

end IrohUdp
